import Mathlib

/- Verification of the MultidimGrid library (src/include/grid.hpp): a shallow
embedding of the recursive N-dimensional grid container `grid::Grid<T, N>`
together with its two construction paths, access and size queries, deep
equality, and the selective-traversal engine (`traverse` / `reduce` /
`traverseImpl`), followed by theorems settling the specification claims. -/

set_option maxRecDepth 4000

namespace MultidimGrid

/-- Per-axis traversal selector: embeds the variadic `Dimension` pack of
`Grid::traverse` where `grid::NoDimension` is the sentinel for "iterate this
axis" (`Sel.iter`) and a `std::size_t` value fixes the axis (`Sel.fixed k`). -/
inductive Sel where
  | iter : Sel
  | fixed : Nat → Sel
deriving DecidableEq, Repr

/-- Error kinds of the library as described by the error taxonomy (kinds, not
literal names): each corresponds to one `throw` site in grid.hpp, plus
`ArityMismatch` for the `static_assert` on the number of per-axis arguments. -/
inductive GridErr where
  | InvalidShape : GridErr
  | EmptyShape : GridErr
  | RaggedShape : GridErr
  | IndexOutOfRange : GridErr
  | AxisOutOfRange : GridErr
  | ArityMismatch : GridErr
deriving DecidableEq, Repr

/-- Outcome of a traversal. `done s b` is a normal return (final visitor state
`s`, stop flag `b`); `err e` is a thrown failure (`traverseImpl` itself never
throws); `ub` marks undefined behavior, produced exactly when the code performs
out-of-range unchecked `std::vector::operator[]` access. -/
inductive TravRes (σ : Type) where
  | done : σ → Bool → TravRes σ
  | err : GridErr → TravRes σ
  | ub : TravRes σ
deriving DecidableEq, Repr

/-- The `ValueType` of `Grid<T, n+1>`: for dimensionality 1 (index 0) it is `T`
itself, and for dimensionality n+2 (index n+1) it is `Grid<T, n+1>`, i.e. a
`std::vector` of the next level down. -/
@[reducible] def Sub (α : Type) : Nat → Type
  | 0 => α
  | n + 1 => List (Sub α n)

/-- Embedding of `grid::Grid<T, N>` with `N = n + 1`: the class stores a single
field `std::vector<ValueType> subgrids_`, modelled as a `List` of `Sub α n`.
So `Grid α 0` is `List α` (`Grid<T,1>`) and `Grid α (n+1)` is
`List (Grid α n)` (`Grid<T,n+2>`). -/
abbrev Grid (α : Type) (n : Nat) : Type := List (Sub α n)

/-- Decidable equality of the stored values, level by level. -/
def subDecEq (α : Type) (inst : DecidableEq α) : (n : Nat) → DecidableEq (Sub α n)
  | 0 => inst
  | n + 1 =>
      letI := subDecEq α inst n
      inferInstanceAs (DecidableEq (List (Sub α n)))

instance instSubDecEq (α : Type) [inst : DecidableEq α] (n : Nat) : DecidableEq (Sub α n) :=
  subDecEq α inst n

/-- Decidable equality of construction results, so that concrete instances can
be settled by `decide`. -/
instance instExceptDecEq {ε β : Type} [DecidableEq ε] [DecidableEq β] :
    DecidableEq (Except ε β) := fun a b =>
  match a, b with
  | Except.ok x, Except.ok y =>
      if h : x = y then isTrue (by rw [h])
      else isFalse (by intro hc; cases hc; exact h rfl)
  | Except.ok _, Except.error _ => isFalse (by intro hc; cases hc)
  | Except.error _, Except.ok _ => isFalse (by intro hc; cases hc)
  | Except.error d, Except.error e =>
      if h : d = e then isTrue (by rw [h])
      else isFalse (by intro hc; cases hc; exact h rfl)

/-- Embedding of `std::vector::at` (used by `Grid::at`): checked access that
throws `std::out_of_range` — error kind `IndexOutOfRange` — when the index is
not below the vector size. -/
def vecAt (xs : List β) (i : Nat) : Except GridErr β :=
  match xs[i]? with
  | some x => Except.ok x
  | none => Except.error GridErr.IndexOutOfRange

/-- Embedding of `Grid::size(dimension)`: dimension 0 reports the vector size;
otherwise an empty vector reports 0; otherwise for dimensionality above 1 the
query recurses into the first child, and at dimensionality 1 it throws
(kind `AxisOutOfRange`, "Dimension value is too big"). -/
def size : (n : Nat) → Grid α n → Nat → Except GridErr Nat
  | _, g, 0 => Except.ok (List.length g)
  | 0, g, _ + 1 =>
      if List.length g = 0 then Except.ok 0 else Except.error GridErr.AxisOutOfRange
  | n + 1, g, k + 1 =>
      match g with
      | [] => Except.ok 0
      | sub :: _ => size n sub k

/-- Chained unchecked element access `g[i0][i1]...[ik]` through
`Grid::operator[]` down to a leaf; `none` models out-of-range access
(undefined behavior) or a coordinate of the wrong length. -/
def getCoord : (n : Nat) → Grid α n → List Nat → Option α
  | 0, xs, [i] => xs[i]?
  | n + 1, gs, i :: c =>
      match gs[i]? with
      | some sub => getCoord n sub c
      | none => none
  | _, _, _ => none

/-- Total variant of `getCoord` returning `dflt` out of range; used to state
the traversal visit lists. -/
def getCoordD (dflt : α) (n : Nat) (g : Grid α n) (c : List Nat) : α :=
  (getCoord n g c).getD dflt

/-- Embedding of an element assignment through chained unchecked indexing,
`g[i0][i1]...[ik] = v`: rebuilds the grid with the single leaf replaced. -/
def setCoord : (n : Nat) → Grid α n → List Nat → α → Grid α n
  | 0, xs, [i], v => List.set xs i v
  | n + 1, gs, i :: c, v =>
      match gs[i]? with
      | some sub => List.set gs i (setCoord n sub c v)
      | none => gs
  | _, g, _, _ => g

/-- Embedding of the size-based constructor `Grid(Dimensions... dimensions)`:
checks the leading extent for zero (`InvalidShape`), then constructs
`d` children, each by the same recursive constructor applied to the remaining
extents (all children are identical, default-constructed at the leaves, so the
loop of `emplace_back` calls is a `List.replicate`). `dflt` is the
default-constructed `T`. A wrong number of extents is the `static_assert`
(`ArityMismatch`). -/
def mkSized (dflt : α) : (n : Nat) → List Nat → Except GridErr (Grid α n)
  | 0, [d] =>
      if d = 0 then Except.error GridErr.InvalidShape
      else Except.ok (List.replicate d dflt)
  | n + 1, d :: rest =>
      if d = 0 then Except.error GridErr.InvalidShape
      else do
        let sub ← mkSized dflt n rest
        Except.ok (List.replicate d sub)
  | _, _ => Except.error GridErr.ArityMismatch

/-- Left-to-right effectful map: the elements of a `std::initializer_list` are
constructed in order, and the first constructor failure propagates. -/
def mapME (f : β → Except GridErr γ) : List β → Except GridErr (List γ)
  | [] => Except.ok []
  | x :: xs => do
      let y ← f x
      let ys ← mapME f xs
      Except.ok (y :: ys)

/-- Embedding of the nested-literal constructor
`Grid(std::initializer_list<ValueType>)`: the children of the literal are
themselves constructed (validated) first, left to right; then the body rejects
an empty list (`EmptyShape`, thrown as `std::out_of_range`), and for
dimensionality above 1 compares each child's `size(0)` — its top-level vector
length — against the first child's, rejecting a mismatch (`RaggedShape`).
The raw literal has the same recursive shape as the grid itself. -/
def mkLit : (n : Nat) → Grid α n → Except GridErr (Grid α n)
  | 0, xs =>
      if List.length xs = 0 then Except.error GridErr.EmptyShape
      else Except.ok xs
  | n + 1, gs => do
      let gs2 ← mapME (mkLit n) gs
      match gs2 with
      | [] => Except.error GridErr.EmptyShape
      | g0 :: _ =>
          if gs2.all (fun g => List.length g == List.length g0) then Except.ok gs2
          else Except.error GridErr.RaggedShape

/-- Embedding of `Grid::operator==` (`= default`): `std::vector::operator==`
compares sizes and then the elements pairwise, recursively using the child
grids' `operator==`, bottoming out in `T::operator==` (modelled as equality). -/
def gridEq [DecidableEq α] : (n : Nat) → Grid α n → Grid α n → Bool
  | 0, xs, ys =>
      List.length xs == List.length ys
        && (List.zip xs ys).all (fun p => decide (p.1 = p.2))
  | n + 1, gs, hs =>
      List.length gs == List.length hs
        && (List.zip gs hs).all (fun p => gridEq n p.1 p.2)

/-- Shape-only structural comparison of two grids of the same dimensionality
(helper for stating rectangularity). -/
def sameShape : (n : Nat) → Grid α n → Grid α n → Bool
  | 0, xs, ys => List.length xs == List.length ys
  | n + 1, gs, hs =>
      List.length gs == List.length hs
        && (List.zip gs hs).all (fun p => sameShape n p.1 p.2)

/-- Rectangularity invariant as stated by the spec: all elements at a given
nesting depth have identical size along every remaining axis, i.e. every child
is rectangular and all children have pairwise identical shapes. -/
def rectangular : (n : Nat) → Grid α n → Bool
  | 0, _ => true
  | n + 1, gs =>
      gs.all (fun g => rectangular n g)
        && (match gs with
            | [] => true
            | g0 :: rest => rest.all (fun g => sameShape n g0 g))

/-- Decidable statement that grid `g` has exactly the per-axis extents `ds`
(axis 0 outermost): the well-formedness every constructed grid is meant to
enjoy. -/
def shapeOk : (n : Nat) → Grid α n → List Nat → Bool
  | 0, xs, ds => ds == [List.length xs]
  | n + 1, gs, d :: rest => List.length gs == d && gs.all (fun g => shapeOk n g rest)
  | _ + 1, _, [] => false

/-- Decidable statement that coordinate `c` is in range for extents `ds`. -/
def coordOk : List Nat → List Nat → Bool
  | [], [] => true
  | i :: c, d :: ds => decide (i < d) && coordOk c ds
  | _, _ => false

/-- Decidable statement that the selector list matches the extents in arity and
that every fixed selector is in range for its axis. -/
def selsOk : List Sel → List Nat → Bool
  | [], [] => true
  | Sel.iter :: sels, _ :: ds => selsOk sels ds
  | Sel.fixed k :: sels, d :: ds => decide (k < d) && selsOk sels ds
  | _, _ => false

/-- Decidable statement that some fixed selector is out of range for its axis. -/
def hasOOBFixed : List Sel → List Nat → Bool
  | Sel.fixed k :: sels, d :: ds => decide (d ≤ k) || hasOOBFixed sels ds
  | _ :: sels, _ :: ds => hasOOBFixed sels ds
  | _, _ => false

/-- Innermost loop of `traverseImpl` when the last selector is the iterate
sentinel: visits the leaves in ascending position order, writing the position
into the last coordinate slot, and short-circuits when the predicate returns
true. The visitor's captured state is threaded explicitly as `σ`. -/
def travLeafIter (f : σ → List Nat → α → σ × Bool) (pre : List Nat) :
    List α → Nat → σ → TravRes σ
  | [], _, s => TravRes.done s false
  | x :: xs, p, s =>
      match f s (pre ++ [p]) x with
      | (s2, true) => TravRes.done s2 true
      | (s2, false) => travLeafIter f pre xs (p + 1) s2

/-- Outer loop of `traverseImpl` when the current selector is the iterate
sentinel: recurses into each child in ascending position order, propagating a
stop signal (or a thrown error, or undefined behavior) immediately. -/
def travListIter (recur : β → List Nat → σ → TravRes σ) (pre : List Nat) :
    List β → Nat → σ → TravRes σ
  | [], _, s => TravRes.done s false
  | g :: gs, p, s =>
      match recur g (pre ++ [p]) s with
      | TravRes.done s2 true => TravRes.done s2 true
      | TravRes.done s2 false => travListIter recur pre gs (p + 1) s2
      | TravRes.err e => TravRes.err e
      | TravRes.ub => TravRes.ub

/-- Embedding of `Grid::traverseImpl` (read-only visitor): recursive descent
over the axes. With the iterate sentinel it loops over the children (the
coordinate is the element's position, obtained by `std::distance` from the
vector front); with a fixed index it writes the index into the coordinate slot
and performs UNCHECKED `subgrids_[firstDim]` access — out of range this is
undefined behavior (`TravRes.ub`), not a thrown error. At dimensionality 1 the
predicate is invoked with the leaf and the fully populated coordinates. A
selector-count mismatch is the `static_assert` (`ArityMismatch`). -/
def traverseImpl (f : σ → List Nat → α → σ × Bool) :
    (n : Nat) → Grid α n → List Sel → List Nat → σ → TravRes σ
  | 0, xs, sels, pre, s =>
      match sels with
      | [Sel.iter] => travLeafIter f pre xs 0 s
      | [Sel.fixed k] =>
          match xs[k]? with
          | some x =>
              match f s (pre ++ [k]) x with
              | (s2, b) => TravRes.done s2 b
          | none => TravRes.ub
      | _ => TravRes.err GridErr.ArityMismatch
  | n + 1, gs, sels, pre, s =>
      match sels with
      | Sel.iter :: rest =>
          travListIter (fun g pr t => traverseImpl f n g rest pr t) pre gs 0 s
      | Sel.fixed k :: rest =>
          match gs[k]? with
          | some sub => traverseImpl f n sub rest (pre ++ [k]) s
          | none => TravRes.ub
      | [] => TravRes.err GridErr.ArityMismatch

/-- Embedding of `Grid::traverse`: zero-initializes the coordinate array and
delegates to `traverseImpl`; the boolean of `done` is its return value. -/
def traverse (f : σ → List Nat → α → σ × Bool) (n : Nat) (g : Grid α n)
    (sels : List Sel) (s : σ) : TravRes σ :=
  traverseImpl f n g sels [] s

/-- Embedding of `Grid::reduce`: wraps the callable in a predicate that always
returns false (never stops) and calls `traverse`. -/
def reduce (f : σ → List Nat → α → σ) (n : Nat) (g : Grid α n)
    (sels : List Sel) (s : σ) : TravRes σ :=
  traverse (fun t c x => (f t c x, false)) n g sels s

/-- Innermost loop of the mutating `traverseImpl` overload: the visitor
receives the leaf by mutable reference, modelled as returning the new leaf
value; returns the updated leaf vector and the stop flag. -/
def mutLeafIter (f : List Nat → α → α × Bool) (pre : List Nat) :
    List α → Nat → List α × Bool
  | [], _ => ([], false)
  | x :: xs, p =>
      match f (pre ++ [p]) x with
      | (x2, true) => (x2 :: xs, true)
      | (x2, false) =>
          match mutLeafIter f pre xs (p + 1) with
          | (xs2, b) => (x2 :: xs2, b)

/-- Outer loop of the mutating `traverseImpl` overload over the children. -/
def mutListIter (recur : β → List Nat → TravRes β) (pre : List Nat) :
    List β → Nat → TravRes (List β)
  | [], _ => TravRes.done [] false
  | g :: gs, p =>
      match recur g (pre ++ [p]) with
      | TravRes.done g2 true => TravRes.done (g2 :: gs) true
      | TravRes.done g2 false =>
          match mutListIter recur pre gs (p + 1) with
          | TravRes.done gs2 b => TravRes.done (g2 :: gs2) b
          | TravRes.err e => TravRes.err e
          | TravRes.ub => TravRes.ub
      | TravRes.err e => TravRes.err e
      | TravRes.ub => TravRes.ub

/-- Embedding of the mutating `Grid::traverseImpl` overload: identical descent
to `traverseImpl`, but the visitor receives the leaf element by mutable
reference (modelled by returning the replacement value), so the result carries
the updated grid. -/
def travMutImpl (f : List Nat → α → α × Bool) :
    (n : Nat) → Grid α n → List Sel → List Nat → TravRes (Grid α n)
  | 0, xs, sels, pre =>
      match sels with
      | [Sel.iter] =>
          match mutLeafIter f pre xs 0 with
          | (xs2, b) => TravRes.done xs2 b
      | [Sel.fixed k] =>
          match xs[k]? with
          | some x =>
              match f (pre ++ [k]) x with
              | (x2, b) => TravRes.done (List.set xs k x2) b
          | none => TravRes.ub
      | _ => TravRes.err GridErr.ArityMismatch
  | n + 1, gs, sels, pre =>
      match sels with
      | Sel.iter :: rest =>
          match mutListIter (fun g pr => travMutImpl f n g rest pr) pre gs 0 with
          | TravRes.done gs2 b => TravRes.done gs2 b
          | TravRes.err e => TravRes.err e
          | TravRes.ub => TravRes.ub
      | Sel.fixed k :: rest =>
          match gs[k]? with
          | some sub =>
              match travMutImpl f n sub rest (pre ++ [k]) with
              | TravRes.done g2 b => TravRes.done (List.set gs k g2) b
              | TravRes.err e => TravRes.err e
              | TravRes.ub => TravRes.ub
          | none => TravRes.ub
      | [] => TravRes.err GridErr.ArityMismatch

/-- Entry point of the mutating traversal (`Grid::traverse`, non-const
overload). -/
def traverseMut (f : List Nat → α → α × Bool) (n : Nat) (g : Grid α n)
    (sels : List Sel) : TravRes (Grid α n) :=
  travMutImpl f n g sels []

/-- Spec-side definition, following the spec's words: the coordinate tuples
implied by the selectors are the cross product over the axes — an iterated
axis contributes every index `0 … d-1` in ascending order, a fixed axis
contributes exactly its pinned index — in row-major order (outer axes vary
slower than inner axes). -/
def specCoords : List Sel → List Nat → List (List Nat)
  | [], [] => [[]]
  | Sel.iter :: sels, d :: ds =>
      (List.range d).flatMap (fun p => (specCoords sels ds).map (fun c => p :: c))
  | Sel.fixed k :: sels, _ :: ds => (specCoords sels ds).map (fun c => k :: c)
  | _, _ => []

/-- Spec-side definition: the full visit list of a traversal — each coordinate
of the cross product paired with the leaf element truly stored there. -/
def specVisits (dflt : α) (n : Nat) (g : Grid α n) (sels : List Sel)
    (ds : List Nat) : List (List Nat × α) :=
  (specCoords sels ds).map (fun c => (c, getCoordD dflt n g c))

/-- Spec-side definition: sequential processing of a visit list by a visitor,
short-circuiting at the first invocation that returns the stop signal;
returns the final state and whether a stop occurred. -/
def runVisits (f : σ → List Nat → α → σ × Bool) :
    List (List Nat × α) → σ → σ × Bool
  | [], s => (s, false)
  | v :: vs, s =>
      match f s v.1 v.2 with
      | (s2, true) => (s2, true)
      | (s2, false) => runVisits f vs s2

/-- Visit list actually produced by the traversal engine's descent, expressed
structurally on the grid (bridge between `traverseImpl` and `specVisits`). -/
def leafVisits (pre : List Nat) : List α → Nat → List (List Nat × α)
  | [], _ => []
  | x :: xs, p => (pre ++ [p], x) :: leafVisits pre xs (p + 1)

/-- Child-by-child concatenation of visit lists for an iterated axis. -/
def nodeVisits (recur : β → List Nat → List (List Nat × α)) (pre : List Nat) :
    List β → Nat → List (List Nat × α)
  | [], _ => []
  | g :: gs, p => recur g (pre ++ [p]) ++ nodeVisits recur pre gs (p + 1)

/-- The visit list of the traversal descent, defined by the same recursion
structure as `traverseImpl`. -/
def actualVisits : (n : Nat) → Grid α n → List Sel → List Nat → List (List Nat × α)
  | 0, xs, [Sel.iter], pre => leafVisits pre xs 0
  | 0, xs, [Sel.fixed k], pre =>
      match xs[k]? with
      | some x => [(pre ++ [k], x)]
      | none => []
  | n + 1, gs, Sel.iter :: rest, pre =>
      nodeVisits (fun g pr => actualVisits n g rest pr) pre gs 0
  | n + 1, gs, Sel.fixed k :: rest, pre =>
      match gs[k]? with
      | some sub => actualVisits n sub rest (pre ++ [k])
      | none => []
  | _, _, _, _ => []

lemma runVisits_append (f : σ → List Nat → α → σ × Bool)
    (A B : List (List Nat × α)) (s : σ) :
    runVisits f (A ++ B) s =
      if (runVisits f A s).2 then runVisits f A s
      else runVisits f B (runVisits f A s).1 := by
  induction A generalizing s with
  | nil => simp [runVisits]
  | cons v vs ih =>
      simp only [List.cons_append, runVisits]
      rcases h : f s v.1 v.2 with ⟨s2, b⟩
      cases b
      · simpa using ih s2
      · simp

lemma runVisits_nostop (f : σ → List Nat → α → σ × Bool)
    (hf : ∀ t c x, (f t c x).2 = false) (V : List (List Nat × α)) (s : σ) :
    runVisits f V s = (V.foldl (fun t v => (f t v.1 v.2).1) s, false) := by
  induction V generalizing s with
  | nil => simp [runVisits]
  | cons v vs ih =>
      simp only [runVisits, List.foldl_cons]
      rcases h : f s v.1 v.2 with ⟨s2, b⟩
      have hb := hf s v.1 v.2
      rw [h] at hb
      simp only at hb
      subst hb
      simpa [h] using ih s2

lemma travLeafIter_eq (f : σ → List Nat → α → σ × Bool) (pre : List Nat) :
    ∀ (xs : List α) (p : Nat) (s : σ),
      travLeafIter f pre xs p s =
        TravRes.done (runVisits f (leafVisits pre xs p) s).1
          (runVisits f (leafVisits pre xs p) s).2 := by
  intro xs
  induction xs with
  | nil => intro p s; rfl
  | cons x xs ih =>
      intro p s
      simp only [travLeafIter, leafVisits, runVisits]
      rcases h : f s (pre ++ [p]) x with ⟨s2, b⟩
      cases b
      · simpa using ih (p + 1) s2
      · simp

lemma travListIter_eq (recur : β → List Nat → σ → TravRes σ)
    (vis : β → List Nat → List (List Nat × α)) (f : σ → List Nat → α → σ × Bool)
    (pre : List Nat) :
    ∀ (gs : List β),
      (∀ g ∈ gs, ∀ pr t, recur g pr t =
          TravRes.done (runVisits f (vis g pr) t).1 (runVisits f (vis g pr) t).2) →
      ∀ (p : Nat) (s : σ),
        travListIter recur pre gs p s =
          TravRes.done (runVisits f (nodeVisits vis pre gs p) s).1
            (runVisits f (nodeVisits vis pre gs p) s).2 := by
  intro gs
  induction gs with
  | nil => intro _ p s; rfl
  | cons g gs ih =>
      intro h p s
      simp only [travListIter, nodeVisits]
      rw [h g (by simp) (pre ++ [p]) s, runVisits_append]
      rcases hr : runVisits f (vis g (pre ++ [p])) s with ⟨s2, b⟩
      cases b
      · simpa using ih (fun g hg pr t => h g (by simp [hg]) pr t) (p + 1) s2
      · simp

lemma shapeOk_leaf {xs : Grid α 0} {ds : List Nat} (h : shapeOk 0 xs ds = true) :
    ds = [List.length xs] := by
  simpa [shapeOk] using h

lemma shapeOk_node {n : Nat} {gs : Grid α (n + 1)} {ds : List Nat}
    (h : shapeOk (n + 1) gs ds = true) :
    ∃ d rest, ds = d :: rest ∧ List.length gs = d ∧
      ∀ g ∈ gs, shapeOk n g rest = true := by
  cases ds with
  | nil => simp [shapeOk] at h
  | cons d rest =>
      simp only [shapeOk, Bool.and_eq_true, beq_iff_eq, List.all_eq_true] at h
      exact ⟨d, rest, rfl, h.1, h.2⟩

lemma selsOk_single {sels : List Sel} {d : Nat} (h : selsOk sels [d] = true) :
    sels = [Sel.iter] ∨ ∃ k, sels = [Sel.fixed k] ∧ k < d := by
  match sels with
  | [] => simp [selsOk] at h
  | [Sel.iter] => exact Or.inl rfl
  | [Sel.fixed k] =>
      refine Or.inr ⟨k, rfl, ?_⟩
      simpa [selsOk] using h
  | Sel.iter :: x :: tl =>
      exfalso
      cases x <;> simp [selsOk] at h
  | Sel.fixed k :: x :: tl =>
      exfalso
      cases x <;> simp [selsOk] at h

lemma traverseImpl_eq_run (f : σ → List Nat → α → σ × Bool) :
    ∀ (n : Nat) (g : Grid α n) (sels : List Sel) (ds : List Nat)
      (pre : List Nat) (s : σ),
      shapeOk n g ds = true → selsOk sels ds = true →
      traverseImpl f n g sels pre s =
        TravRes.done (runVisits f (actualVisits n g sels pre) s).1
          (runVisits f (actualVisits n g sels pre) s).2 := by
  intro n
  induction n with
  | zero =>
      intro xs sels ds pre s hs ho
      have hds := shapeOk_leaf hs
      subst hds
      rcases selsOk_single ho with h1 | ⟨k, h1, hk⟩
      · subst h1
        simpa [traverseImpl, actualVisits] using travLeafIter_eq f pre xs 0 s
      · subst h1
        have hget : xs[k]? = some xs[k] := List.getElem?_eq_getElem hk
        simp only [traverseImpl, actualVisits, hget, runVisits]
        rcases h : f s (pre ++ [k]) xs[k] with ⟨s2, b⟩
        cases b <;> simp [runVisits]
  | succ n ih =>
      intro gs sels ds pre s hs ho
      obtain ⟨d, rest, rfl, hlen, hchild⟩ := shapeOk_node hs
      cases sels with
      | nil => simp [selsOk] at ho
      | cons s1 tl =>
          cases s1 with
          | iter =>
              have htl : selsOk tl rest = true := by simpa [selsOk] using ho
              simp only [traverseImpl, actualVisits]
              exact travListIter_eq _ (fun g pr => actualVisits n g tl pr) f pre gs
                (fun g hg pr t => ih g tl rest pr t (hchild g hg) htl) 0 s
          | fixed k =>
              have hk : k < d ∧ selsOk tl rest = true := by
                simpa [selsOk] using ho
              have hklen : k < List.length gs := by rw [hlen]; exact hk.1
              have hget : gs[k]? = some gs[k] := List.getElem?_eq_getElem hklen
              simp only [traverseImpl, actualVisits, hget]
              exact ih _ tl rest (pre ++ [k]) s
                (hchild _ (List.getElem_mem hklen)) hk.2

lemma flatMapCongr {l : List β} {f1 f2 : β → List γ}
    (h : ∀ x ∈ l, f1 x = f2 x) : l.flatMap f1 = l.flatMap f2 := by
  induction l with
  | nil => rfl
  | cons x xs ih =>
      simp only [List.flatMap_cons]
      rw [h x (by simp), ih (fun y hy => h y (by simp [hy]))]

lemma flatMapSingle (l : List β) (F : β → γ) :
    l.flatMap (fun x => [F x]) = l.map F := by
  induction l with
  | nil => rfl
  | cons x xs ih => simp [List.flatMap_cons, ih]

lemma leafVisits_eq (dflt : α) (pre : List Nat) :
    ∀ (xs : List α) (p : Nat),
      leafVisits pre xs p =
        (List.range (List.length xs)).map
          (fun i => (pre ++ [p + i], List.getD xs i dflt)) := by
  intro xs
  induction xs with
  | nil => intro p; rfl
  | cons x xs ih =>
      intro p
      simp only [leafVisits, List.length_cons, List.range_succ_eq_map,
        List.map_cons, List.map_map]
      refine List.cons_eq_cons.mpr ⟨by simp, ?_⟩
      rw [ih (p + 1)]
      refine List.map_congr_left fun i _ => ?_
      have harith : p + (i + 1) = p + 1 + i := by omega
      simp [Function.comp, harith]

lemma getCoordD_cons {n : Nat} (dflt : α) (gs : Grid α (n + 1)) (q : Nat)
    (hq : q < List.length gs) (c : List Nat) :
    getCoordD dflt (n + 1) gs (q :: c) = getCoordD dflt n gs[q] c := by
  simp [getCoordD, getCoord, List.getElem?_eq_getElem hq]

lemma actualVisits_eq_spec (dflt : α) :
    ∀ (n : Nat) (g : Grid α n) (sels : List Sel) (ds : List Nat) (pre : List Nat),
      shapeOk n g ds = true → selsOk sels ds = true →
      actualVisits n g sels pre =
        (specCoords sels ds).map (fun c => (pre ++ c, getCoordD dflt n g c)) := by
  intro n
  induction n with
  | zero =>
      intro xs sels ds pre hs ho
      have hds := shapeOk_leaf hs
      subst hds
      rcases selsOk_single ho with h1 | ⟨k, h1, hk⟩
      · subst h1
        rw [show actualVisits 0 xs [Sel.iter] pre = leafVisits pre xs 0 from rfl,
          leafVisits_eq dflt pre xs 0]
        simp only [specCoords, List.map_flatMap, List.map_cons, List.map_nil]
        rw [flatMapSingle]
        refine List.map_congr_left fun i hi => ?_
        have hi2 : i < List.length xs := List.mem_range.mp hi
        simp [getCoordD, getCoord, List.getD_eq_getElem xs dflt hi2,
          List.getElem?_eq_getElem hi2]
      · subst h1
        have hget : xs[k]? = some xs[k] := List.getElem?_eq_getElem hk
        simp only [actualVisits, hget, specCoords, List.map_cons, List.map_nil,
          List.map_map]
        simp [getCoordD, getCoord, hget]
  | succ n ih =>
      intro gs sels ds pre hs ho
      obtain ⟨d, rest, rfl, hlen, hchild⟩ := shapeOk_node hs
      cases sels with
      | nil => simp [selsOk] at ho
      | cons s1 tl =>
          cases s1 with
          | iter =>
              have htl : selsOk tl rest = true := by simpa [selsOk] using ho
              have key : ∀ (gs2 : List (Grid α n)) (p : Nat),
                  (∀ g ∈ gs2, shapeOk n g rest = true) →
                  nodeVisits (fun g pr => actualVisits n g tl pr) pre gs2 p =
                    (List.range (List.length gs2)).flatMap
                      (fun i => (specCoords tl rest).map
                        (fun c => (pre ++ ((p + i) :: c),
                          getCoordD dflt n (gs2.getD i ([] : Grid α n)) c))) := by
                intro gs2
                induction gs2 with
                | nil => intro p _; rfl
                | cons g gs2 ih2 =>
                    intro p hg
                    simp only [nodeVisits, List.length_cons, List.range_succ_eq_map,
                      List.flatMap_cons, List.flatMap_map]
                    congr 1
                    · rw [ih g tl rest (pre ++ [p]) (hg g (by simp)) htl]
                      refine List.map_congr_left fun c _ => ?_
                      simp
                    · rw [ih2 (p + 1) (fun g2 hg2 => hg g2 (by simp [hg2]))]
                      refine flatMapCongr fun i _ => ?_
                      refine List.map_congr_left fun c _ => ?_
                      have harith : p + (i + 1) = p + 1 + i := by omega
                      simp [Function.comp, harith]
              rw [show actualVisits (n + 1) gs (Sel.iter :: tl) pre =
                    nodeVisits (fun g pr => actualVisits n g tl pr) pre gs 0 from rfl,
                key gs 0 hchild]
              simp only [specCoords, List.map_flatMap, List.map_map]
              rw [hlen]
              refine flatMapCongr fun q hq => ?_
              refine List.map_congr_left fun c _ => ?_
              have hq2 : q < List.length gs := by
                rw [hlen]; exact List.mem_range.mp hq
              have hgd : gs.getD q ([] : Grid α n) = gs[q] :=
                List.getD_eq_getElem gs ([] : Grid α n) hq2
              simp [Function.comp, hgd, getCoordD_cons dflt gs q hq2,
                List.getElem?_eq_getElem hq2]
          | fixed k =>
              have hk : k < d ∧ selsOk tl rest = true := by
                simpa [selsOk] using ho
              have hklen : k < List.length gs := by rw [hlen]; exact hk.1
              have hget : gs[k]? = some gs[k] := List.getElem?_eq_getElem hklen
              simp only [actualVisits, hget, specCoords, List.map_map]
              rw [ih _ tl rest (pre ++ [k]) (hchild _ (List.getElem_mem hklen)) hk.2]
              refine List.map_congr_left fun c _ => ?_
              simp [Function.comp, getCoordD_cons dflt gs k hklen]

lemma traverse_eq_runVisits (dflt : α) (f : σ → List Nat → α → σ × Bool)
    (n : Nat) (g : Grid α n) (sels : List Sel) (ds : List Nat) (s : σ)
    (hs : shapeOk n g ds = true) (ho : selsOk sels ds = true) :
    traverse f n g sels s =
      TravRes.done (runVisits f (specVisits dflt n g sels ds) s).1
        (runVisits f (specVisits dflt n g sels ds) s).2 := by
  rw [show traverse f n g sels s = traverseImpl f n g sels [] s from rfl,
    traverseImpl_eq_run f n g sels ds [] s hs ho,
    actualVisits_eq_spec dflt n g sels ds [] hs ho]
  simp [specVisits]

lemma traverseImpl_oob (f : σ → List Nat → α → σ × Bool) :
    ∀ (n : Nat) (g : Grid α n) (sels : List Sel) (ds : List Nat)
      (pre : List Nat) (s : σ),
      shapeOk n g ds = true → ds.all (fun d => decide (0 < d)) = true →
      List.length sels = List.length ds → hasOOBFixed sels ds = true →
      traverseImpl f n g sels pre s = TravRes.ub := by
  intro n
  induction n with
  | zero =>
      intro xs sels ds pre s hs hpos hlen hbad
      have hds := shapeOk_leaf hs
      subst hds
      match sels, hlen with
      | [sel], _ =>
          cases sel with
          | iter => simp [hasOOBFixed] at hbad
          | fixed k =>
              have hk : List.length xs ≤ k := by simpa [hasOOBFixed] using hbad
              have hnone : xs[k]? = none := List.getElem?_eq_none hk
              simp [traverseImpl, hnone]
  | succ n ih =>
      intro gs sels ds pre s hs hpos hlen hbad
      obtain ⟨d, rest, rfl, hdlen, hchild⟩ := shapeOk_node hs
      match sels with
      | [] => simp at hlen
      | sel :: tl =>
          have hlen2 : List.length tl = List.length rest := by simpa using hlen
          have hposparts : 0 < d ∧ rest.all (fun e => decide (0 < e)) = true := by
            simpa [List.all_cons] using hpos
          cases sel with
          | iter =>
              have hbad2 : hasOOBFixed tl rest = true := by
                simpa [hasOOBFixed] using hbad
              cases gs with
              | nil =>
                  exfalso
                  rw [List.length_nil] at hdlen
                  omega
              | cons g0 gs2 =>
                  simp only [traverseImpl, travListIter]
                  rw [ih g0 tl rest (pre ++ [0]) s (hchild g0 (by simp))
                    hposparts.2 hlen2 hbad2]
          | fixed k =>
              have hcases : d ≤ k ∨ hasOOBFixed tl rest = true := by
                simpa [hasOOBFixed] using hbad
              rcases hcases with hk | hbad2
              · have hnone : gs[k]? = none :=
                  List.getElem?_eq_none (by rw [hdlen]; exact hk)
                simp [traverseImpl, hnone]
              · by_cases hklt : k < List.length gs
                · have hget : gs[k]? = some gs[k] := List.getElem?_eq_getElem hklt
                  simp only [traverseImpl, hget]
                  exact ih _ tl rest (pre ++ [k]) s
                    (hchild _ (List.getElem_mem hklt)) hposparts.2 hlen2 hbad2
                · have hnone : gs[k]? = none :=
                    List.getElem?_eq_none (Nat.le_of_not_lt hklt)
                  simp [traverseImpl, hnone]

/-- C2 counterexample: on the 1-D grid [1,2,3] with the fixed selector 5
(5 ≥ size 3), `traverse` does NOT fail with an `IndexOutOfRange` error — the
fixed-index branch of `traverseImpl` performs unchecked `subgrids_[firstDim]`
access, which out of range is undefined behavior. -/
theorem traverse_oob_counterexample :
    traverse (fun (s : Nat) _ x => (s + x, false)) 0 ([1, 2, 3] : List Nat)
        [Sel.fixed 5] 0 = TravRes.ub ∧
      traverse (fun (s : Nat) _ x => (s + x, false)) 0 ([1, 2, 3] : List Nat)
        [Sel.fixed 5] 0 ≠ TravRes.err GridErr.IndexOutOfRange := by
  decide

/-- C2 (amended): for every grid of positive extents and every selector list of
the right arity in which some axis is fixed at an index k ≥ size(that axis),
`traverse` (and `reduce`) reach unchecked out-of-range vector access —
undefined behavior — rather than raising `IndexOutOfRange`: the traversal
engine never bounds-checks a fixed selector. -/
theorem traverse_oob_fixed_is_ub {α σ : Type} (f : σ → List Nat → α → σ × Bool)
    (n : Nat) (g : Grid α n) (sels : List Sel) (ds : List Nat) (s : σ)
    (hshape : shapeOk n g ds = true)
    (hpos : ds.all (fun d => decide (0 < d)) = true)
    (harity : List.length sels = List.length ds)
    (hbad : hasOOBFixed sels ds = true) :
    traverse f n g sels s = TravRes.ub ∧
      ∀ (r : σ → List Nat → α → σ) (t : σ),
        reduce r n g sels t = TravRes.ub := by
  constructor
  · exact traverseImpl_oob f n g sels ds [] s hshape hpos harity hbad
  · intro r t
    exact traverseImpl_oob _ n g sels ds [] t hshape hpos harity hbad

/-- Witness for `traverse_oob_fixed_is_ub` on a 2x2 grid with axis 1 fixed at
7. -/
theorem traverse_oob_fixed_is_ub_witness :
    traverse (fun (s : Nat) _ x => (s + x, false)) 1
        ([[1, 2], [3, 4]] : List (List Nat)) [Sel.iter, Sel.fixed 7] 0 =
      TravRes.ub :=
  (traverse_oob_fixed_is_ub (fun (s : Nat) _ x => (s + x, false)) 1
    ([[1, 2], [3, 4]] : List (List Nat)) [Sel.iter, Sel.fixed 7] [2, 2] 0
    (by decide) (by decide) (by decide) (by decide)).1

/-- C3: for every grid and every in-range selector combination, `traverse` with
a never-stopping visitor invokes the visitor exactly once per coordinate of the
row-major cross product of the iterated axes (fixed axes pinned, outer axes
varying slower), in ascending order, passing each invocation the true
N-dimensional coordinate tuple and the leaf element stored there: the final
state is the left fold of the visitor over exactly `specVisits`, and the result
signals no stop. `reduce` does the same for an arbitrary callable. -/
theorem traverse_row_major_visits {α σ : Type} (dflt : α)
    (f : σ → List Nat → α → σ × Bool) (n : Nat) (g : Grid α n) (sels : List Sel)
    (ds : List Nat) (s : σ)
    (hshape : shapeOk n g ds = true) (hsel : selsOk sels ds = true)
    (hnostop : ∀ t c x, (f t c x).2 = false) :
    traverse f n g sels s =
      TravRes.done ((specVisits dflt n g sels ds).foldl
        (fun t v => (f t v.1 v.2).1) s) false
  ∧ ∀ (r : σ → List Nat → α → σ) (t : σ),
      reduce r n g sels t =
        TravRes.done ((specVisits dflt n g sels ds).foldl
          (fun u v => r u v.1 v.2) t) false := by
  constructor
  · rw [traverse_eq_runVisits dflt f n g sels ds s hshape hsel,
      runVisits_nostop f hnostop]
  · intro r t
    rw [show reduce r n g sels t =
          traverse (fun u c x => (r u c x, false)) n g sels t from rfl,
      traverse_eq_runVisits dflt _ n g sels ds t hshape hsel,
      runVisits_nostop _ (fun _ _ _ => rfl)]

/-- Witness for `traverse_row_major_visits`: logging the visits of a 2x2 grid
with both axes iterated yields the four coordinate/value pairs in row-major
order. -/
theorem traverse_row_major_visits_witness :
    traverse (fun (s : List (List Nat × Nat)) c x => (s ++ [(c, x)], false)) 1
        ([[1, 2], [3, 4]] : List (List Nat)) [Sel.iter, Sel.iter] [] =
      TravRes.done [([0, 0], 1), ([0, 1], 2), ([1, 0], 3), ([1, 1], 4)] false := by
  have h := (traverse_row_major_visits 0
    (fun (s : List (List Nat × Nat)) c x => (s ++ [(c, x)], false)) 1
    ([[1, 2], [3, 4]] : List (List Nat)) [Sel.iter, Sel.iter] [2, 2] []
    (by decide) (by decide) (fun _ _ _ => rfl)).1
  rw [h]
  decide

/-- C4: for every grid, visitor and in-range selector combination, `traverse`
equals sequential processing (`runVisits`) of the row-major visit list with
short-circuit at the first stop: the returned flag is true iff some visitor
invocation returned the stop signal, and once an invocation stops, no later
coordinate in visit order is passed to the visitor. -/
theorem traverse_stop_short_circuit {α σ : Type} (dflt : α)
    (f : σ → List Nat → α → σ × Bool) (n : Nat) (g : Grid α n) (sels : List Sel)
    (ds : List Nat) (s : σ)
    (hshape : shapeOk n g ds = true) (hsel : selsOk sels ds = true) :
    traverse f n g sels s =
      TravRes.done (runVisits f (specVisits dflt n g sels ds) s).1
        (runVisits f (specVisits dflt n g sels ds) s).2 :=
  traverse_eq_runVisits dflt f n g sels ds s hshape hsel

/-- Witness for `traverse_stop_short_circuit`: the spec's example — a 1-D grid
[1,2,3,4,5] with a visitor that accumulates and stops at value 4 accumulates
10 (not 15) and reports that a stop occurred. -/
theorem traverse_stop_short_circuit_witness :
    traverse (fun (s : Nat) _ x => (s + x, x == 4)) 0
        ([1, 2, 3, 4, 5] : List Nat) [Sel.iter] 0 = TravRes.done 10 true := by
  have h := traverse_stop_short_circuit 0 (fun (s : Nat) _ x => (s + x, x == 4))
    0 ([1, 2, 3, 4, 5] : List Nat) [Sel.iter] [5] 0 (by decide) (by decide)
  rw [h]
  decide

lemma size_zero : ∀ (n : Nat) (g : Grid α n), size n g 0 = Except.ok (List.length g) := by
  intro n
  cases n <;> intro g <;> rfl

lemma size_of_shapeOk :
    ∀ (n : Nat) (g : Grid α n) (ds : List Nat),
      shapeOk n g ds = true → ds.all (fun d => decide (0 < d)) = true →
      (∀ k, k ≤ n → size n g k = Except.ok (List.getD ds k 0)) ∧
      (∀ k, n + 1 ≤ k → size n g k = Except.error GridErr.AxisOutOfRange) := by
  intro n
  induction n with
  | zero =>
      intro xs ds hs hpos
      have hds := shapeOk_leaf hs
      subst hds
      have hd : 0 < List.length xs := by simpa using hpos
      constructor
      · intro k hk
        have hk0 : k = 0 := Nat.le_zero.mp hk
        subst hk0
        simp [size]
      · intro k hk
        match k, hk with
        | k + 1, _ =>
            have : List.length xs ≠ 0 := by omega
            simp [size, this]
  | succ n ih =>
      intro gs ds hs hpos
      obtain ⟨d, rest, rfl, hdlen, hchild⟩ := shapeOk_node hs
      have hposparts : 0 < d ∧ rest.all (fun e => decide (0 < e)) = true := by
        simpa [List.all_cons] using hpos
      cases gs with
      | nil =>
          exfalso
          rw [List.length_nil] at hdlen
          omega
      | cons g0 gs2 =>
          have hsub := ih g0 rest (hchild g0 (by simp)) hposparts.2
          constructor
          · intro k hk
            match k with
            | 0 =>
                rw [size_zero]
                simp [← hdlen]
            | k + 1 =>
                simp only [size]
                rw [hsub.1 k (by omega)]
                simp
          · intro k hk
            match k, hk with
            | k + 1, _ =>
                simp only [size]
                exact hsub.2 k (by omega)

lemma mkSized_ok (dflt : α) :
    ∀ (n : Nat) (ds : List Nat),
      List.length ds = n + 1 → ds.all (fun d => decide (0 < d)) = true →
      ∃ g, mkSized dflt n ds = Except.ok g ∧ shapeOk n g ds = true ∧
        ∀ c v, getCoord n g c = some v → v = dflt := by
  intro n
  induction n with
  | zero =>
      intro ds hlen hpos
      match ds with
      | [d] =>
          have hd : 0 < d := by simpa using hpos
          have hd0 : d ≠ 0 := by omega
          refine ⟨List.replicate d dflt, by simp [mkSized, hd0], ?_, ?_⟩
          · simp [shapeOk]
          · intro c v hv
            match c with
            | [] => simp [getCoord] at hv
            | [i] =>
                simp only [getCoord, List.getElem?_replicate] at hv
                by_cases hi : i < d
                · rw [if_pos hi] at hv
                  exact (Option.some_inj.mp hv).symm
                · rw [if_neg hi] at hv
                  cases hv
            | i :: j :: tl => simp [getCoord] at hv
      | d :: e :: tl => simp at hlen
      | [] => simp at hlen
  | succ n ih =>
      intro ds hlen hpos
      match ds with
      | [] => simp at hlen
      | d :: rest =>
          have hrest : List.length rest = n + 1 := by simpa using hlen
          have hposparts : 0 < d ∧ rest.all (fun e => decide (0 < e)) = true := by
            simpa [List.all_cons] using hpos
          have hd0 : d ≠ 0 := by omega
          obtain ⟨sub, hsub, hshape, hdf⟩ := ih rest hrest hposparts.2
          refine ⟨List.replicate d sub, ?_, ?_, ?_⟩
          · simp only [mkSized, if_neg hd0]
            rw [hsub]
            rfl
          · simp only [shapeOk, List.length_replicate, List.all_eq_true, beq_self_eq_true,
              Bool.true_and]
            intro g hg
            rw [List.eq_of_mem_replicate hg]
            exact hshape
          · intro c v hv
            match c with
            | [] => simp [getCoord] at hv
            | i :: tl =>
                simp only [getCoord, List.getElem?_replicate] at hv
                by_cases hi : i < d
                · rw [if_pos hi] at hv
                  exact hdf tl v hv
                · rw [if_neg hi] at hv
                  cases hv

/-- C5: size-based construction with positive extents d0..dn succeeds; the
resulting grid reports size(k) = d_k for every axis k < N, and every leaf
element reachable by indexing is the default-constructed value. -/
theorem sized_construction_correct {α : Type} (dflt : α) (n : Nat)
    (ds : List Nat) (hlen : List.length ds = n + 1)
    (hpos : ds.all (fun d => decide (0 < d)) = true) :
    ∃ g, mkSized dflt n ds = Except.ok g ∧
      (∀ k, k ≤ n → size n g k = Except.ok (List.getD ds k 0)) ∧
      (∀ c v, getCoord n g c = some v → v = dflt) := by
  obtain ⟨g, hok, hshape, hdf⟩ := mkSized_ok dflt n ds hlen hpos
  exact ⟨g, hok, (size_of_shapeOk n g ds hshape hpos).1, hdf⟩

/-- Witness for `sized_construction_correct` at extents (2, 3). -/
theorem sized_construction_correct_witness :
    ∃ g, mkSized (0 : Nat) 1 [2, 3] = Except.ok g ∧
      (∀ k, k ≤ 1 → size 1 g k = Except.ok (List.getD [2, 3] k 0)) ∧
      (∀ c v, getCoord 1 g c = some v → v = 0) :=
  sized_construction_correct 0 1 [2, 3] (by decide) (by decide)

lemma mkSized_zero (dflt : α) :
    ∀ (n : Nat) (ds : List Nat),
      List.length ds = n + 1 → 0 ∈ ds →
      mkSized dflt n ds = Except.error GridErr.InvalidShape := by
  intro n
  induction n with
  | zero =>
      intro ds hlen hz
      match ds with
      | [d] =>
          have h0 : (0 : Nat) = d := by simpa using hz
          subst h0
          simp [mkSized]
      | [] => simp at hlen
      | d :: e :: tl => simp at hlen
  | succ n ih =>
      intro ds hlen hz
      match ds with
      | [] => simp at hlen
      | d :: rest =>
          by_cases hd : d = 0
          · subst hd
            simp [mkSized]
          · have hzrest : 0 ∈ rest := by
              rcases List.mem_cons.mp hz with h | h
              · exact absurd h.symm hd
              · exact h
            have herr := ih rest (by simpa using hlen) hzrest
            simp only [mkSized, if_neg hd]
            rw [herr]
            rfl

/-- C6: size-based construction with any extent equal to zero fails with
`InvalidShape` (hence no usable grid is produced — the result is never
`Except.ok`), and nested-literal construction from an empty outer sequence
fails with `EmptyShape`, at every dimensionality. -/
theorem construction_failure_modes {α : Type} (dflt : α) :
    (∀ (n : Nat) (ds : List Nat), List.length ds = n + 1 → 0 ∈ ds →
        mkSized dflt n ds = Except.error GridErr.InvalidShape ∧
        ∀ g : Grid α n, mkSized dflt n ds ≠ Except.ok g)
  ∧ (∀ n : Nat, mkLit n ([] : Grid α n) = Except.error GridErr.EmptyShape ∧
        ∀ g : Grid α n, mkLit n ([] : Grid α n) ≠ Except.ok g) := by
  constructor
  · intro n ds hlen hz
    have herr := mkSized_zero dflt n ds hlen hz
    exact ⟨herr, fun g hc => by rw [herr] at hc; cases hc⟩
  · intro n
    have herr : mkLit n ([] : Grid α n) = Except.error GridErr.EmptyShape := by
      cases n <;> rfl
    exact ⟨herr, fun g hc => by rw [herr] at hc; cases hc⟩

/-- Witness for `construction_failure_modes`: a zero middle extent and an empty
2-D literal. -/
theorem construction_failure_modes_witness :
    mkSized (0 : Nat) 2 [2, 0, 3] = Except.error GridErr.InvalidShape ∧
      mkLit 1 ([] : Grid Nat 1) = Except.error GridErr.EmptyShape := by
  have h := construction_failure_modes (0 : Nat)
  exact ⟨(h.1 2 [2, 0, 3] (by decide) (by decide)).1, (h.2 1).1⟩

/-- C7: on a constructed (well-shaped, positive-extent) grid, checked access
`at(i)` fails with `IndexOutOfRange` exactly when i ≥ size(0) — the top-level
vector length — and returns the i-th immediate child otherwise; and the size
query `size(k)` succeeds with the k-th extent for k < N and fails with
`AxisOutOfRange` exactly when k ≥ N. -/
theorem checked_access_size_errors {α : Type} (n : Nat) (g : Grid α n)
    (ds : List Nat) (hshape : shapeOk n g ds = true)
    (hpos : ds.all (fun d => decide (0 < d)) = true) :
    (∀ i : Nat,
        (vecAt g i = Except.error GridErr.IndexOutOfRange ↔ List.length g ≤ i)
        ∧ ∀ h : i < List.length g, vecAt g i = Except.ok (g.get ⟨i, h⟩))
  ∧ (size n g 0 = Except.ok (List.length g))
  ∧ (∀ k : Nat, k ≤ n → size n g k = Except.ok (List.getD ds k 0))
  ∧ (∀ k : Nat, n + 1 ≤ k → size n g k = Except.error GridErr.AxisOutOfRange) := by
  refine ⟨?_, size_zero n g, (size_of_shapeOk n g ds hshape hpos).1,
    (size_of_shapeOk n g ds hshape hpos).2⟩
  intro i
  constructor
  · constructor
    · intro h
      by_contra hlt
      rw [Nat.not_le] at hlt
      rw [show vecAt g i = Except.ok (g.get ⟨i, hlt⟩) from by
        simp [vecAt, List.getElem?_eq_getElem hlt]] at h
      cases h
    · intro h
      simp [vecAt, List.getElem?_eq_none h]
  · intro h
    simp [vecAt, List.getElem?_eq_getElem h]

/-- Witness for `checked_access_size_errors` on a 2x2 grid: at(5) raises
IndexOutOfRange, at(1) returns the second row, size(3) raises AxisOutOfRange. -/
theorem checked_access_size_errors_witness :
    (vecAt ([[1, 2], [3, 4]] : List (List Nat)) 5 =
        Except.error GridErr.IndexOutOfRange)
    ∧ vecAt ([[1, 2], [3, 4]] : List (List Nat)) 1 = Except.ok [3, 4]
    ∧ size 1 ([[1, 2], [3, 4]] : List (List Nat)) 3 =
        Except.error GridErr.AxisOutOfRange := by
  have h := checked_access_size_errors 1 ([[1, 2], [3, 4]] : List (List Nat))
    [2, 2] (by decide) (by decide)
  refine ⟨((h.1 5).1).mpr (by decide), ?_, h.2.2.2 3 (by decide)⟩
  have h2 := (h.1 1).2 (by decide)
  simpa using h2

lemma exceptBindOk (x : β) (f : β → Except GridErr γ) :
    (Except.ok x : Except GridErr β) >>= f = f x := rfl

lemma exceptBindErr (e : GridErr) (f : β → Except GridErr γ) :
    (Except.error e : Except GridErr β) >>= f = Except.error e := rfl

lemma mapME_cons (f : β → Except GridErr γ) (x : β) (xs : List β) :
    mapME f (x :: xs) =
      f x >>= fun y => mapME f xs >>= fun ys => Except.ok (y :: ys) := rfl

lemma mapME_ok_eq {f : β → Except GridErr β}
    (hf : ∀ x y, f x = Except.ok y → y = x) :
    ∀ (xs ys : List β), mapME f xs = Except.ok ys → ys = xs := by
  intro xs
  induction xs with
  | nil =>
      intro ys h
      rw [show mapME f [] = Except.ok [] from rfl] at h
      injection h with h2
      exact h2.symm
  | cons x xs ih =>
      intro ys h
      rw [mapME_cons] at h
      cases hfx : f x with
      | error e => rw [hfx, exceptBindErr] at h; cases h
      | ok y =>
          rw [hfx, exceptBindOk] at h
          cases hrec : mapME f xs with
          | error e => rw [hrec, exceptBindErr] at h; cases h
          | ok ys2 =>
              rw [hrec, exceptBindOk] at h
              injection h with h2
              rw [← h2, hf x y hfx, ih ys2 hrec]

lemma mkLit_node (n : Nat) (gs : Grid α (n + 1)) :
    mkLit (n + 1) gs =
      mapME (mkLit n) gs >>= fun gs2 =>
        match gs2 with
        | [] => Except.error GridErr.EmptyShape
        | g0 :: _ =>
            if gs2.all (fun g => List.length g == List.length g0) then Except.ok gs2
            else Except.error GridErr.RaggedShape := rfl

lemma mkLit_ok_eq :
    ∀ (n : Nat) (t g : Grid α n), mkLit n t = Except.ok g → g = t := by
  intro n
  induction n with
  | zero =>
      intro t g h
      simp only [mkLit] at h
      by_cases ht : List.length t = 0
      · rw [if_pos ht] at h; cases h
      · rw [if_neg ht] at h
        injection h with h2
        exact h2.symm
  | succ n ih =>
      intro t g h
      rw [mkLit_node] at h
      cases hm : mapME (mkLit n) t with
      | error e => rw [hm, exceptBindErr] at h; cases h
      | ok gs2 =>
          have hgs : gs2 = t := mapME_ok_eq (fun x y hy => ih x y hy) t gs2 hm
          rw [hm, exceptBindOk] at h
          split at h
          · cases h
          · split at h
            · injection h with h2
              rw [← h2, hgs]
            · cases h

/-- C8: round-trip — a grid successfully constructed from a nested literal
stores the literal verbatim, so reading back by chained indexed access at every
coordinate reproduces the literal's values exactly, in the same
coordinate-to-value mapping. -/
theorem literal_roundtrip {α : Type} (n : Nat) (t g : Grid α n)
    (h : mkLit n t = Except.ok g) :
    g = t ∧ ∀ c : List Nat, getCoord n g c = getCoord n t c := by
  have heq := mkLit_ok_eq n t g h
  exact ⟨heq, fun c => by rw [heq]⟩

/-- Witness for `literal_roundtrip` on a 2x2 literal at coordinate (1,0). -/
theorem literal_roundtrip_witness :
    ([[1, 2], [3, 4]] : List (List Nat)) = [[1, 2], [3, 4]] ∧
      getCoord 1 ([[1, 2], [3, 4]] : List (List Nat)) [1, 0] =
        getCoord 1 ([[1, 2], [3, 4]] : List (List Nat)) [1, 0] := by
  have h := literal_roundtrip 1 ([[1, 2], [3, 4]] : List (List Nat))
    [[1, 2], [3, 4]] (by decide)
  exact ⟨h.1, h.2 [1, 0]⟩

lemma zipAllEq (R : β → β → Bool) (hR : ∀ a b, R a b = true ↔ a = b) :
    ∀ (l1 l2 : List β),
      ((List.length l1 == List.length l2)
        && (List.zip l1 l2).all (fun p => R p.1 p.2)) = true ↔ l1 = l2 := by
  intro l1
  induction l1 with
  | nil =>
      intro l2
      cases l2 <;> simp
  | cons x xs ih =>
      intro l2
      cases l2 with
      | nil => simp
      | cons y ys =>
          have h2 := ih ys
          simp only [List.length_cons, List.zip_cons_cons, List.all_cons,
            Bool.and_eq_true, beq_iff_eq, Nat.add_right_cancel_iff,
            List.cons_eq_cons] at h2 ⊢
          constructor
          · rintro ⟨hlen, hxy, hall⟩
            exact ⟨(hR x y).mp hxy, h2.mp ⟨hlen, hall⟩⟩
          · rintro ⟨hxy, htl⟩
            obtain ⟨hlen, hall⟩ := h2.mpr htl
            exact ⟨hlen, (hR x y).mpr hxy, hall⟩

lemma gridEq_iff_eq [DecidableEq α] :
    ∀ (n : Nat) (g h : Grid α n), gridEq n g h = true ↔ g = h := by
  intro n
  induction n with
  | zero =>
      intro g h
      exact zipAllEq (fun a b => decide (a = b)) (fun a b => by simp) g h
  | succ n ih =>
      intro g h
      exact zipAllEq (gridEq n) (fun a b => ih a b) g h

lemma shapeOk_functional :
    ∀ (n : Nat) (g : Grid α n) (ds1 ds2 : List Nat),
      shapeOk n g ds1 = true → ds1.all (fun d => decide (0 < d)) = true →
      shapeOk n g ds2 = true → ds1 = ds2 := by
  intro n
  induction n with
  | zero =>
      intro xs ds1 ds2 h1 _ h2
      rw [shapeOk_leaf h1, shapeOk_leaf h2]
  | succ n ih =>
      intro gs ds1 ds2 h1 hpos h2
      obtain ⟨d1, r1, rfl, hl1, hc1⟩ := shapeOk_node h1
      obtain ⟨d2, r2, rfl, hl2, hc2⟩ := shapeOk_node h2
      have hd : d1 = d2 := by rw [← hl1, ← hl2]
      have hposparts : 0 < d1 ∧ r1.all (fun e => decide (0 < e)) = true := by
        simpa [List.all_cons] using hpos
      cases gs with
      | nil =>
          exfalso
          rw [List.length_nil] at hl1
          omega
      | cons g0 gs2 =>
          have hrest := ih g0 r1 r2 (hc1 g0 (by simp)) hposparts.2 (hc2 g0 (by simp))
          rw [hd, hrest]

lemma grid_ext :
    ∀ (n : Nat) (g h : Grid α n) (ds : List Nat),
      shapeOk n g ds = true → shapeOk n h ds = true →
      (∀ c, getCoord n g c = getCoord n h c) → g = h := by
  intro n
  induction n with
  | zero =>
      intro xs ys ds h1 h2 hc
      refine List.ext_getElem? fun i => ?_
      simpa [getCoord] using hc [i]
  | succ n ih =>
      intro gs hs2 ds h1 h2 hc
      obtain ⟨d, rest, rfl, hl1, hc1⟩ := shapeOk_node h1
      obtain ⟨d2, rest2, heq, hl2, hc2⟩ := shapeOk_node h2
      injection heq with heqd heqr
      subst heqd
      subst heqr
      refine List.ext_getElem? fun i => ?_
      by_cases hi : i < List.length gs
      · have hi2 : i < List.length hs2 := by rw [hl2, ← hl1]; exact hi
        rw [List.getElem?_eq_getElem hi, List.getElem?_eq_getElem hi2]
        have hchildeq : gs[i] = hs2[i] := by
          refine ih gs[i] hs2[i] rest (hc1 _ (List.getElem_mem hi))
            (hc2 _ (List.getElem_mem hi2)) fun c => ?_
          have := hc (i :: c)
          simpa [getCoord, List.getElem?_eq_getElem hi,
            List.getElem?_eq_getElem hi2] using this
        rw [hchildeq]
      · have hi2 : ¬ i < List.length hs2 := by rw [hl2, ← hl1]; exact hi
        rw [List.getElem?_eq_none (Nat.le_of_not_lt hi),
          List.getElem?_eq_none (Nat.le_of_not_lt hi2)]

lemma listGetSet (l : List β) (i : Nat) (a : β) (h : i < List.length l) :
    (List.set l i a)[i]? = some a := by
  simp [List.getElem?_set_self', h]

lemma getCoord_setCoord_of_some :
    ∀ (n : Nat) (g : Grid α n) (c : List Nat) (v w : α),
      getCoord n g c = some w → getCoord n (setCoord n g c v) c = some v := by
  intro n
  induction n with
  | zero =>
      intro xs c v w h
      match c with
      | [] => simp [getCoord] at h
      | [i] =>
          have hi : i < List.length xs := by
            by_contra hlt
            rw [show getCoord 0 xs [i] = xs[i]? from rfl,
              List.getElem?_eq_none (Nat.le_of_not_lt hlt)] at h
            cases h
          rw [show setCoord 0 xs [i] v = List.set xs i v from rfl]
          rw [show getCoord 0 (List.set xs i v) [i] = (List.set xs i v)[i]? from rfl]
          simp [List.getElem?_set_self', hi]
      | i :: j :: tl => simp [getCoord] at h
  | succ n ih =>
      intro gs c v w h
      match c with
      | [] => simp [getCoord] at h
      | i :: tl =>
          simp only [getCoord] at h
          cases hgi : gs[i]? with
          | none =>
              rw [hgi] at h
              exact Option.noConfusion h
          | some sub =>
              rw [hgi] at h
              have h2 : getCoord n sub tl = some w := h
              have hi : i < List.length gs := by
                by_contra hlt
                rw [List.getElem?_eq_none (Nat.le_of_not_lt hlt)] at hgi
                cases hgi
              simp only [setCoord, hgi, getCoord]
              rw [listGetSet gs i (setCoord n sub tl v) hi]
              exact ih sub tl v w h2

lemma getCoord_setCoord_ne :
    ∀ (n : Nat) (g : Grid α n) (c c2 : List Nat) (v : α), c2 ≠ c →
      getCoord n (setCoord n g c v) c2 = getCoord n g c2 := by
  intro n
  induction n with
  | zero =>
      intro xs c c2 v hne
      match c with
      | [] => rfl
      | i :: j :: tl => rfl
      | [i] =>
          rw [show setCoord 0 xs [i] v = List.set xs i v from rfl]
          match c2 with
          | [] => rfl
          | j :: k :: tl => rfl
          | [j] =>
              have hij : i ≠ j := fun hc => hne (by rw [hc])
              rw [show getCoord 0 (List.set xs i v) [j] = (List.set xs i v)[j]? from rfl,
                show getCoord 0 xs [j] = xs[j]? from rfl]
              exact List.getElem?_set_ne hij
  | succ n ih =>
      intro gs c c2 v hne
      match c with
      | [] => rfl
      | i :: tl =>
          cases hgi : gs[i]? with
          | none => simp [setCoord, hgi]
          | some sub =>
              have hi : i < List.length gs := by
                by_contra hlt
                rw [List.getElem?_eq_none (Nat.le_of_not_lt hlt)] at hgi
                cases hgi
              simp only [setCoord, hgi]
              match c2 with
              | [] => rfl
              | j :: tl2 =>
                  by_cases hij : j = i
                  · subst hij
                    have htl : tl2 ≠ tl := fun hc => hne (by rw [hc])
                    simp only [getCoord]
                    rw [listGetSet gs j (setCoord n sub tl v) hi, hgi]
                    exact ih sub tl tl2 v htl
                  · simp only [getCoord]
                    rw [List.getElem?_set_ne (fun hc => hij hc.symm)]

lemma size_setCoord :
    ∀ (n : Nat) (g : Grid α n) (c : List Nat) (v : α) (k : Nat),
      size n (setCoord n g c v) k = size n g k := by
  intro n
  induction n with
  | zero =>
      intro xs c v k
      match c with
      | [] => rfl
      | i :: j :: tl => rfl
      | [i] =>
          rw [show setCoord 0 xs [i] v = List.set xs i v from rfl]
          match k with
          | 0 => simp [size]
          | k + 1 =>
              simp only [size]
              rw [List.length_set xs i v]
  | succ n ih =>
      intro gs c v k
      match c with
      | [] => rfl
      | i :: tl =>
          cases hgi : gs[i]? with
          | none => simp [setCoord, hgi]
          | some sub =>
              simp only [setCoord, hgi]
              match k with
              | 0 => simp [size_zero]
              | k + 1 =>
                  match gs, hgi with
                  | g0 :: gs2, hgi =>
                      match i with
                      | 0 =>
                          have hsub : sub = g0 := by
                            simp only [List.getElem?_cons_zero] at hgi
                            injection hgi with h2
                            exact h2.symm
                          subst hsub
                          simp only [List.set_cons_zero, size]
                          exact ih sub tl v k
                      | i + 1 =>
                          simp only [List.set_cons_succ, size]

/-- C9: grid equality (`operator== = default`) is deep structural equality —
for well-formed grids of positive extents, two grids compare equal iff their
per-axis extents coincide and every coordinate holds equal leaf values; the
comparison is reflexive, symmetric and transitive; and mutating any single
leaf element makes a grid unequal to its prior snapshot. -/
theorem grid_equality_deep {α : Type} [DecidableEq α] :
    (∀ (n : Nat) (g h : Grid α n) (ds1 ds2 : List Nat),
        shapeOk n g ds1 = true → ds1.all (fun d => decide (0 < d)) = true →
        shapeOk n h ds2 = true → ds2.all (fun d => decide (0 < d)) = true →
        (gridEq n g h = true ↔
          ds1 = ds2 ∧ ∀ c, getCoord n g c = getCoord n h c))
  ∧ (∀ (n : Nat) (g : Grid α n), gridEq n g g = true)
  ∧ (∀ (n : Nat) (g h : Grid α n), gridEq n g h = gridEq n h g)
  ∧ (∀ (n : Nat) (g h k : Grid α n),
      gridEq n g h = true → gridEq n h k = true → gridEq n g k = true)
  ∧ (∀ (n : Nat) (g : Grid α n) (c : List Nat) (v w : α),
      getCoord n g c = some w → v ≠ w →
      gridEq n (setCoord n g c v) g = false) := by
  refine ⟨?_, ?_, ?_, ?_, ?_⟩
  · intro n g h ds1 ds2 h1 hp1 h2 hp2
    constructor
    · intro heq
      have hgh : g = h := (gridEq_iff_eq n g h).mp heq
      subst hgh
      exact ⟨shapeOk_functional n g ds1 ds2 h1 hp1 h2, fun c => rfl⟩
    · rintro ⟨hds, hcoords⟩
      subst hds
      exact (gridEq_iff_eq n g h).mpr (grid_ext n g h ds1 h1 h2 hcoords)
  · intro n g
    exact (gridEq_iff_eq n g g).mpr rfl
  · intro n g h
    rcases hb : gridEq n h g with hf | ht
    · by_contra hne
      rw [Bool.not_eq_false] at hne
      rw [(gridEq_iff_eq n g h).mp hne] at hb
      rw [(gridEq_iff_eq n h h).mpr rfl] at hb
      cases hb
    · exact (gridEq_iff_eq n g h).mpr ((gridEq_iff_eq n h g).mp hb).symm
  · intro n g h k hgh hhk
    exact (gridEq_iff_eq n g k).mpr
      (((gridEq_iff_eq n g h).mp hgh).trans ((gridEq_iff_eq n h k).mp hhk))
  · intro n g c v w hw hne
    by_contra hb
    rw [Bool.not_eq_false] at hb
    have hgg : setCoord n g c v = g := (gridEq_iff_eq n (setCoord n g c v) g).mp hb
    have := getCoord_setCoord_of_some n g c v w hw
    rw [hgg, hw] at this
    injection this with h2
    exact hne h2.symm

/-- Witness for `grid_equality_deep`: a 2x2x2 grid equals its copy; after
writing 0 at coordinate (0,0,0) (which held 1) the copies are unequal. -/
theorem grid_equality_deep_witness :
    gridEq 2 ([[[1, 2], [3, 4]], [[1, 2], [5, 6]]] : List (List (List Nat)))
        [[[1, 2], [3, 4]], [[1, 2], [5, 6]]] = true
    ∧ gridEq 2
        (setCoord 2 ([[[1, 2], [3, 4]], [[1, 2], [5, 6]]] : List (List (List Nat)))
          [0, 0, 0] 0)
        [[[1, 2], [3, 4]], [[1, 2], [5, 6]]] = false := by
  constructor
  · exact grid_equality_deep.2.1 2 [[[1, 2], [3, 4]], [[1, 2], [5, 6]]]
  · exact grid_equality_deep.2.2.2.2 2 [[[1, 2], [3, 4]], [[1, 2], [5, 6]]]
      [0, 0, 0] 0 1 (by decide) (by decide)

lemma getCoord_isSome :
    ∀ (n : Nat) (g : Grid α n) (ds c : List Nat),
      shapeOk n g ds = true → coordOk c ds = true →
      ∃ w, getCoord n g c = some w := by
  intro n
  induction n with
  | zero =>
      intro xs ds c hs hc
      have hds := shapeOk_leaf hs
      subst hds
      match c with
      | [] => simp [coordOk] at hc
      | [i] =>
          have hi : i < List.length xs := by simpa [coordOk] using hc
          exact ⟨xs[i], List.getElem?_eq_getElem hi⟩
      | i :: j :: tl => simp [coordOk] at hc
  | succ n ih =>
      intro gs ds c hs hc
      obtain ⟨d, rest, rfl, hlen, hchild⟩ := shapeOk_node hs
      match c with
      | [] => simp [coordOk] at hc
      | i :: tl =>
          have hc2 : i < d ∧ coordOk tl rest = true := by simpa [coordOk] using hc
          have hi : i < List.length gs := by rw [hlen]; exact hc2.1
          have hget : gs[i]? = some gs[i] := List.getElem?_eq_getElem hi
          obtain ⟨w, hw⟩ := ih gs[i] rest tl (hchild _ (List.getElem_mem hi)) hc2.2
          exact ⟨w, by simp [getCoord, hget, hw]⟩

lemma travMutImpl_fixed (v : α) :
    ∀ (n : Nat) (g : Grid α n) (ds c pre : List Nat),
      shapeOk n g ds = true → coordOk c ds = true →
      travMutImpl (fun _ _ => (v, false)) n g (c.map Sel.fixed) pre =
        TravRes.done (setCoord n g c v) false := by
  intro n
  induction n with
  | zero =>
      intro xs ds c pre hs hc
      have hds := shapeOk_leaf hs
      subst hds
      match c with
      | [] => simp [coordOk] at hc
      | [i] =>
          have hi : i < List.length xs := by simpa [coordOk] using hc
          have hget : xs[i]? = some xs[i] := List.getElem?_eq_getElem hi
          simp [travMutImpl, hget, setCoord]
      | i :: j :: tl => simp [coordOk] at hc
  | succ n ih =>
      intro gs ds c pre hs hc
      obtain ⟨d, rest, rfl, hlen, hchild⟩ := shapeOk_node hs
      match c with
      | [] => simp [coordOk] at hc
      | i :: tl =>
          have hc2 : i < d ∧ coordOk tl rest = true := by simpa [coordOk] using hc
          have hi : i < List.length gs := by rw [hlen]; exact hc2.1
          have hget : gs[i]? = some gs[i] := List.getElem?_eq_getElem hi
          simp only [List.map_cons, travMutImpl, hget]
          rw [ih gs[i] rest tl (pre ++ [i]) (hchild _ (List.getElem_mem hi)) hc2.2]
          simp [setCoord, hget]

/-- C10: frame property of in-place mutation — writing value v through the
mutable reference delivered by the mutating traversal with every axis fixed at
the in-range coordinate c produces exactly the grid of the chained
`operator[]` assignment `g[c0]...[ck] = v` (`setCoord`); afterwards the leaf at
c holds v, every other coordinate reads back unchanged, and every axis size
query is unchanged. -/
theorem mutation_frame {α : Type} (n : Nat) (g : Grid α n) (ds c : List Nat)
    (v : α) (hshape : shapeOk n g ds = true) (hc : coordOk c ds = true) :
    traverseMut (fun _ _ => (v, false)) n g (c.map Sel.fixed) =
      TravRes.done (setCoord n g c v) false
  ∧ getCoord n (setCoord n g c v) c = some v
  ∧ (∀ c2, c2 ≠ c → getCoord n (setCoord n g c v) c2 = getCoord n g c2)
  ∧ (∀ k, size n (setCoord n g c v) k = size n g k) := by
  obtain ⟨w, hw⟩ := getCoord_isSome n g ds c hshape hc
  exact ⟨travMutImpl_fixed v n g ds c [] hshape hc,
    getCoord_setCoord_of_some n g c v w hw,
    fun c2 hne => getCoord_setCoord_ne n g c c2 v hne,
    fun k => size_setCoord n g c v k⟩

/-- Witness for `mutation_frame`: writing 9 at coordinate (1,0) of a 2x2 grid
through the all-fixed mutating traversal yields [[1,2],[9,4]] and leaves
coordinate (0,1) unchanged. -/
theorem mutation_frame_witness :
    traverseMut (fun _ _ => ((9 : Nat), false)) 1
        ([[1, 2], [3, 4]] : List (List Nat)) ([1, 0].map Sel.fixed) =
      TravRes.done [[1, 2], [9, 4]] false
    ∧ getCoord 1 (setCoord 1 ([[1, 2], [3, 4]] : List (List Nat)) [1, 0] 9)
        [0, 1] = getCoord 1 ([[1, 2], [3, 4]] : List (List Nat)) [0, 1] := by
  have h := mutation_frame 1 ([[1, 2], [3, 4]] : List (List Nat)) [2, 2] [1, 0]
    9 (by decide) (by decide)
  refine ⟨?_, h.2.2.1 [0, 1] (by decide)⟩
  rw [h.1]
  decide

/-- C1 (code bug): the nested-literal constructor ACCEPTS the ragged 3-D
literal {{{1,2},{3,4}},{{1,2,3},{4,5,6}}} — its one-level rectangularity check
compares only each child's size(0) (here 2 = 2), never the deeper extents — so
a grid violating the rectangularity invariant is constructed rather than being
rejected with `RaggedShape`: `rectangular` is false for it, `size(2)` reports
2, yet coordinate (1,0,2) is readable and holds 3. -/
theorem literal_accepts_ragged :
    mkLit 2 ([[[1, 2], [3, 4]], [[1, 2, 3], [4, 5, 6]]] : List (List (List Nat))) =
      Except.ok [[[1, 2], [3, 4]], [[1, 2, 3], [4, 5, 6]]]
  ∧ mkLit 2 ([[[1, 2], [3, 4]], [[1, 2, 3], [4, 5, 6]]] : List (List (List Nat))) ≠
      Except.error GridErr.RaggedShape
  ∧ rectangular 2
      ([[[1, 2], [3, 4]], [[1, 2, 3], [4, 5, 6]]] : List (List (List Nat))) = false
  ∧ size 2 ([[[1, 2], [3, 4]], [[1, 2, 3], [4, 5, 6]]] : List (List (List Nat))) 2 =
      Except.ok 2
  ∧ getCoord 2 ([[[1, 2], [3, 4]], [[1, 2, 3], [4, 5, 6]]] : List (List (List Nat)))
      [1, 0, 2] = some 3 := by
  decide

end MultidimGrid
